import Mathlib

/-!
# pushlambdafuncgo: the build, package, upload, update pipeline of `main.go`

A shallow embedding of `src/main.go`. The program is one procedure, `main`, that talks to
the file system, the Go compiler, the zip writer and two AWS services. Here every outside
answer is a field of `World`, every outside call is an `Event` of the run's trace, and
`main` maps the command-line flags and a world to the trace and the exit status.
-/

namespace Pushlambda

/-! ## Data model -/

/-- The settings file `.pushrc.json` (`type RcConfig struct`, lines 22-27). -/
structure RcConfig where
  Name : String
  Bucket : String
  Region : String
  Arm : Bool
  deriving DecidableEq, Repr

/-- The five command-line flags with their pointers dereferenced (lines 33-37). -/
structure Flags where
  functionPath : String
  functionName : String
  s3Bucket : String
  region : String
  arm : Bool
  deriving DecidableEq, Repr

/-- The values the later stages read: `*functionName`, `*s3Bucket`, `awsRegion`, `*arm`
as they stand after the settings file was merged (line 108 onwards). -/
structure Target where
  functionName : String
  s3Bucket : String
  awsRegion : String
  arm : Bool
  deriving DecidableEq, Repr

/-- The fields of `zip.FileHeader` that `main` sets (lines 192-197); `CreatorVersion` and
`Method` are `uint16`, `ExternalAttrs` is `uint32`. -/
structure FileHeader where
  CreatorVersion : Nat
  ExternalAttrs : Nat
  Name : String
  Method : Nat
  deriving DecidableEq, Repr

/-- What the zip buffer holds when its bytes are taken (line 235): the header of the one
entry as the archive stores it, the bytes handed to that entry, and whether `Write` and
`Close` reported success. -/
structure Archive where
  entry : FileHeader
  content : List Nat
  written : Bool
  finalized : Bool
  deriving DecidableEq, Repr

/-- The request `s3.PutObjectInput` (lines 238-242). -/
structure PutObjectInput where
  Bucket : String
  Key : String
  Body : Archive
  deriving DecidableEq, Repr

/-- The request `lambda.UpdateFunctionCodeInput` (lines 259-271). -/
structure UpdateFunctionCodeInput where
  FunctionName : String
  Publish : Bool
  DryRun : Bool
  S3Bucket : String
  S3Key : String
  Architectures : List String
  deriving DecidableEq, Repr

/-- A console item: plain text, or text wrapped by aurora's `Red` or `Green`. -/
inductive Text where
  | plain (s : String)
  | red (s : String)
  | green (s : String)
  deriving DecidableEq, Repr

/-- The outside calls of one run, in program order. -/
inductive Event where
  | println (items : List Text)
  | stderr (s : String)
  | printDefaults
  | stat (path : String)
  | readFile (path : String)
  | compile (args : List String) (env : List String)
  | createHeader (h : FileHeader)
  | zipWrite (content : List Nat)
  | zipClose
  | newSession (awsRegion : String)
  | putObject (input : PutObjectInput)
  | updateFunctionCode (input : UpdateFunctionCodeInput)
  | remove (path : String)
  deriving DecidableEq, Repr

/-- How the process ends: `os.Exit(n)` or falling off `main` (status 0), or a Go runtime
panic (the runtime prints the panic and ends the process with status 2). -/
inductive Exit where
  | code (n : Nat)
  | panic
  deriving DecidableEq, Repr

/-- One run: what was called and how the process ended. -/
structure Run where
  trace : List Event
  exit : Exit
  deriving DecidableEq, Repr

/-- What reading and decoding `.pushrc.json` gives (lines 68-81): `ioutil.ReadFile` fails,
`json.Unmarshal` fails, the document is the JSON value `null` (which sets the pointer
`rcConfig` to nil without an error), or a settings value is decoded. -/
inductive RcRead where
  | missing
  | malformed (err : String)
  | null
  | loaded (cfg : RcConfig)
  deriving DecidableEq, Repr

/-- What `os.Remove` finds: the file was there and is removed, the file is not there, or
another failure. -/
inductive RemoveResult where
  | removed
  | notExist
  | failed (err : String)
  deriving DecidableEq, Repr

/-- The answers of the outside world to the calls of one run. Each call is made at most
once in a run, so one answer per call is enough. -/
structure World where
  /-- The result of `os.Getwd`, which `filepath.Abs` asks for a relative path. -/
  getwd : Except String String
  /-- The value of `os.IsNotExist(err)` after `os.Stat(realFunctionPath)`. -/
  statNotExist : Bool
  /-- The process environment, `os.Environ()`. -/
  environ : List String
  /-- The value of `os.Getenv("AWS_DEFAULT_REGION")`. -/
  awsDefaultRegion : String
  /-- The reading and decoding of `.pushrc.json`. -/
  rcFile : RcRead
  /-- The error of `compileCmd.CombinedOutput()`, none for nil. -/
  compileErr : Option String
  /-- The combined output of the compiler. -/
  compileOut : String
  /-- The error of `zipWriter.CreateHeader`; with an error the returned writer is nil. The
  writer of line 185 writes into a memory buffer, where archive/zip has no error to return
  for this call, for `Write` or for `Close`; the three answers are kept free so that no
  theorem rests on that. -/
  createHeaderErr : Option String
  /-- Reading `<realFunctionPath>/main` back. -/
  binary : Except String (List Nat)
  /-- The error of `zipFile.Write`. -/
  writeErr : Option String
  /-- The error of `zipWriter.Close`. -/
  closeErr : Option String
  /-- The error of `session.NewSession`, on which `session.Must` panics. -/
  sessionErr : Option String
  /-- The error of `s3Client.PutObject`. -/
  putErr : Option String
  /-- The error of `lambdaClient.UpdateFunctionCode`. -/
  updateErr : Option String
  /-- What `os.Remove` finds at the path it is handed. -/
  removeResult : RemoveResult

/-! ## Library functions used by `main` -/

/-- Go's `len` of a string: its number of bytes. -/
def len (s : String) : Nat := s.utf8ByteSize

/-- An error is nil exactly when it is `none`; `os.Remove` returns a `*PathError` when the
file is not there. -/
def removeErr (path : String) : RemoveResult → Option String
  | .removed => none
  | .notExist => some ("remove " ++ path ++ ": no such file or directory")
  | .failed e => some e

/-- The segments of a path between its slashes. -/
def splitSlash : List Char → List (List Char)
  | [] => [[]]
  | c :: cs =>
    match splitSlash cs with
    | [] => [[]]
    | seg :: rest => if c = '/' then [] :: seg :: rest else (c :: seg) :: rest

/-- One step of `filepath.Clean` over the segments kept so far (latest first): empty and
`.` segments go, `..` removes the segment before it, stays at the root of a rooted path,
and is kept at the start of a relative one. -/
def cleanStep (rooted : Bool) (out : List String) (seg : String) : List String :=
  if seg = "" ∨ seg = "." then out
  else if seg = ".." then
    match out with
    | top :: rest => if top = ".." then seg :: out else rest
    | [] => if rooted then [] else [seg]
  else seg :: out

/-- The segments of a path after `filepath.Clean`, first segment first. -/
def cleanSegments (rooted : Bool) (path : String) : List String :=
  (((splitSlash path.data).map String.mk).foldl (cleanStep rooted) []).reverse

/-- Whether the path starts at the root (`filepath.IsAbs` on Unix). -/
def IsAbs (path : String) : Bool := path.data.head? = some '/'

/-- Go's `filepath.Clean` on Unix. -/
def Clean (path : String) : String :=
  let body := "/".intercalate (cleanSegments (IsAbs path) path)
  if IsAbs path then "/" ++ body
  else if body = "" then "." else body

/-- Go's `filepath.Join` of the working directory and a path: empty elements are ignored
and the rest is cleaned. -/
def Join (wd path : String) : String :=
  if wd = "" ∧ path = "" then ""
  else if wd = "" then Clean path
  else if path = "" then Clean wd
  else Clean (wd ++ "/" ++ path)

/-- Go's `filepath.Abs` on Unix: an absolute path is cleaned, a relative one is joined to
the working directory, and a failing `os.Getwd` is the error. -/
def Abs (getwd : Except String String) (path : String) : Except String String :=
  if IsAbs path then .ok (Clean path)
  else
    match getwd with
    | .error e => .error e
    | .ok wd => .ok (Join wd path)

/-- The file a path names for a process whose working directory is `wd`, as the list of
directory entries from the root: a relative path starts at `wd`, and `.` and `..` are
followed (every directory on the way exists and none is a symbolic link). -/
def fileOf (wd path : String) : List String :=
  if IsAbs path then cleanSegments true path
  else cleanSegments true (wd ++ "/" ++ path)

/-! ## The program -/

/-- The region before the settings file is read (lines 56-61). -/
def initialRegion (f : Flags) (w : World) : String :=
  if len f.region > 0 then f.region else w.awsDefaultRegion

/-- The merge of the settings file into the flags (lines 83-107). -/
def mergeRc (f : Flags) (awsRegion : String) (rcConfig : RcConfig) : Target :=
  { functionName :=
      if len rcConfig.Name > 0 then
        if len f.functionName < 1 then rcConfig.Name else f.functionName
      else f.functionName
    s3Bucket :=
      if len rcConfig.Bucket > 0 then
        if len f.s3Bucket < 1 then rcConfig.Bucket else f.s3Bucket
      else f.s3Bucket
    awsRegion :=
      if len rcConfig.Region > 0 then
        if len awsRegion < 1 then rcConfig.Region else awsRegion
      else awsRegion
    arm := if rcConfig.Arm then rcConfig.Arm else f.arm }

/-- The flags alone, for a run without a settings file (line 72). -/
def flagsOnly (f : Flags) (awsRegion : String) : Target :=
  { functionName := f.functionName, s3Bucket := f.s3Bucket, awsRegion := awsRegion, arm := f.arm }

/-- The `GOARCH` entry appended to the compile environment (lines 159-164). -/
def goarch (arm : Bool) : String :=
  if arm then "GOARCH=arm64" else "GOARCH=amd64"

/-- The name of the archive entry (lines 187-190). -/
def zipFileName (arm : Bool) : String :=
  if arm then "bootstrap" else "main"

/-- The header handed to `zipWriter.CreateHeader` (lines 192-197); `zip.Deflate` is 8, and
the two shifted constants are stored in a `uint16` and a `uint32` field. -/
def zipHeader (arm : Bool) : FileHeader :=
  { CreatorVersion := (3 <<< 8) % 2 ^ 16
    ExternalAttrs := (0o777 <<< 16) % 2 ^ 32
    Name := zipFileName arm
    Method := 8 }

/-- The header as `zipWriter.CreateHeader` stores it in the archive: archive/zip keeps the
high byte of the creator version and sets its low byte to 20 (`zipVersion20`),
`fh.CreatorVersion = fh.CreatorVersion&0xff00 | zipVersion20`; the name, the method and the
external attributes of a file entry are stored as handed. -/
def storedHeader (h : FileHeader) : FileHeader :=
  { h with CreatorVersion := (h.CreatorVersion &&& 0xff00) ||| 20 }

/-- The `Architectures` of the update request (lines 267-271). -/
def architectures (arm : Bool) : List String :=
  if arm then ["arm64"] else ["x86_64"]

/-- The key of the uploaded object, `fmt.Sprintf("%s.zip", *functionName)`. -/
def objectKey (functionName : String) : String := functionName ++ ".zip"

/-- The update request (lines 259-271). -/
def updateFuncCodeInput (t : Target) : UpdateFunctionCodeInput :=
  { FunctionName := t.functionName
    Publish := false
    DryRun := false
    S3Bucket := t.s3Bucket
    S3Key := objectKey t.functionName
    Architectures := architectures t.arm }

/-- The put request (lines 238-242). -/
def s3Input (t : Target) (body : Archive) : PutObjectInput :=
  { Bucket := t.s3Bucket, Key := objectKey t.functionName, Body := body }

/-- The compile command line (lines 142-149). -/
def compileArgs (realFunctionPath : String) : List String :=
  ["go", "build", "-trimpath", "-o", realFunctionPath ++ "/main", realFunctionPath ++ "/main.go"]

/-- The compile environment (lines 152-164). -/
def compileEnv (w : World) (arm : Bool) : List String :=
  ((w.environ ++ ["GOOS=linux"]) ++ ["CGO_ENABLED=0"]) ++ [goarch arm]

/-- Put events in front of the rest of a run. -/
def Run.pre (evs : List Event) (r : Run) : Run :=
  ⟨evs ++ r.trace, r.exit⟩

/-- Removal of the generated binary at the end of the run (lines 285-294). The path is
built from `*functionPath`. -/
def cleanup (f : Flags) (w : World) : Run :=
  match removeErr (f.functionPath ++ "/main") w.removeResult with
  | some e =>
    ⟨[.remove (f.functionPath ++ "/main"), .println [.red e]], .code 1⟩
  | none =>
    ⟨[.remove (f.functionPath ++ "/main"), .println [.plain ">> All done :)"]], .code 0⟩

/-- The update of the function code (lines 256-281). On an error the binary is removed,
the result of that removal is not read, and the process exits with 1. -/
def updateFunction (f : Flags) (t : Target) (w : World) : Run :=
  match w.updateErr with
  | some e =>
    ⟨[.println [.plain ">> Update aws lambda function code ..."],
      .updateFunctionCode (updateFuncCodeInput t),
      .println [.red e],
      .remove (f.functionPath ++ "/main")], .code 1⟩
  | none =>
    Run.pre
      [.println [.plain ">> Update aws lambda function code ..."],
       .updateFunctionCode (updateFuncCodeInput t),
       .println [.plain ">> Update aws lambda function code", .green "success"]]
      (cleanup f w)

/-- The upload (lines 221-252). `session.Must` panics when the session cannot be made. -/
def upload (f : Flags) (t : Target) (body : Archive) (w : World) : Run :=
  match w.sessionErr with
  | some _ =>
    ⟨[.println [.plain ">> Push zip archive to s3 bucket", .plain t.s3Bucket, .plain "..."],
      .newSession t.awsRegion], .panic⟩
  | none =>
    match w.putErr with
    | some e =>
      ⟨[.println [.plain ">> Push zip archive to s3 bucket", .plain t.s3Bucket, .plain "..."],
        .newSession t.awsRegion,
        .putObject (s3Input t body),
        .println [.red e]], .code 1⟩
    | none =>
      Run.pre
        [.println [.plain ">> Push zip archive to s3 bucket", .plain t.s3Bucket, .plain "..."],
         .newSession t.awsRegion,
         .putObject (s3Input t body),
         .println [.plain ">> Push zip archive to s3 bucket", .plain t.s3Bucket, .green "success"]]
        (updateFunction f t w)

/-- The packaging (lines 179-217). The error of `CreateHeader` is dropped at line 192, so
the test of line 199 reads `err` as the compile step left it; a nil `zipFile` makes
`zipFile.Write` panic; the results of `Write` and `Close` are not read. -/
def package (err : Option String) (realFunctionPath : String) (f : Flags) (t : Target)
    (w : World) : Run :=
  match err with
  | some e =>
    ⟨[.println [.plain ">> Zip generated binary ..."],
      .createHeader (zipHeader t.arm),
      .println [.red e]], .code 1⟩
  | none =>
    match w.binary with
    | .error e =>
      ⟨[.println [.plain ">> Zip generated binary ..."],
        .createHeader (zipHeader t.arm),
        .readFile (realFunctionPath ++ "/main"),
        .println [.red e]], .code 1⟩
    | .ok binaryContent =>
      match w.createHeaderErr with
      | some _ =>
        ⟨[.println [.plain ">> Zip generated binary ..."],
          .createHeader (zipHeader t.arm),
          .readFile (realFunctionPath ++ "/main")], .panic⟩
      | none =>
        Run.pre
          [.println [.plain ">> Zip generated binary ..."],
           .createHeader (zipHeader t.arm),
           .readFile (realFunctionPath ++ "/main"),
           .zipWrite binaryContent,
           .zipClose,
           .println [.plain ">> Zip generated binary", .green "success"]]
          (upload f t
            { entry := storedHeader (zipHeader t.arm)
              content := binaryContent
              written := w.writeErr.isNone
              finalized := w.closeErr.isNone } w)

/-- The build (lines 139-175). A compiler error prints the error and the whole combined
output and exits with 1. -/
def build (realFunctionPath : String) (f : Flags) (t : Target) (w : World) : Run :=
  match w.compileErr with
  | some e =>
    ⟨[.println [.plain ">> Building target function ..."],
      .compile (compileArgs realFunctionPath) (compileEnv w t.arm),
      .println [.plain e],
      .println [.plain w.compileOut]], .code 1⟩
  | none =>
    Run.pre
      [.println [.plain ">> Building target function ..."],
       .compile (compileArgs realFunctionPath) (compileEnv w t.arm),
       .println [.plain ">> Build target function", .green "success"]]
      (package w.compileErr realFunctionPath f t w)

/-- The lines logged before the build (lines 127-135). -/
def logParams (realFunctionPath : String) (t : Target) : List Event :=
  [.println [.plain ">> Run pushlambdafungo for function", .green realFunctionPath],
   .println [.plain ">> Function name :", .green t.functionName],
   .println [.plain ">> Arm build (AWS Graviton2) :", .green (if t.arm then "Yes" else "No")],
   .println [.plain ">> AWS Region :", .green t.awsRegion],
   .println [.plain ">> S3 Bucket :", .green t.s3Bucket]]

/-- The usage text printed by both validation branches. -/
def usage : List Event :=
  [.stderr "Usage : pushlambdafungo [options]\n", .printDefaults]

/-- The validation (lines 112-124) and what follows it. The branch for a missing function
name ends with `os.Exit(1)`; the branch for a missing region prints and goes on. -/
def validate (realFunctionPath : String) (f : Flags) (t : Target) (w : World) : Run :=
  if len t.functionName < 1 then
    ⟨.println [.red "Function name required"] :: usage, .code 1⟩
  else if len t.awsRegion < 1 then
    Run.pre (.println [.red "AWS region required"] :: usage ++ logParams realFunctionPath t)
      (build realFunctionPath f t w)
  else
    Run.pre (logParams realFunctionPath t) (build realFunctionPath f t w)

/-- The settings file (lines 66-108) and what follows it. -/
def loadRc (realFunctionPath : String) (f : Flags) (w : World) : Run :=
  match w.rcFile with
  | .missing =>
    Run.pre [.readFile (realFunctionPath ++ "/.pushrc.json")]
      (validate realFunctionPath f (flagsOnly f (initialRegion f w)) w)
  | .malformed e =>
    ⟨[.readFile (realFunctionPath ++ "/.pushrc.json"), .println [.red e]], .code 1⟩
  | .null =>
    ⟨[.readFile (realFunctionPath ++ "/.pushrc.json")], .panic⟩
  | .loaded rcConfig =>
    Run.pre [.readFile (realFunctionPath ++ "/.pushrc.json")]
      (validate realFunctionPath f (mergeRc f (initialRegion f w) rcConfig) w)

/-- The program (lines 29-295). -/
def main (f : Flags) (w : World) : Run :=
  match Abs w.getwd f.functionPath with
  | .error e => ⟨[.println [.red e]], .code 1⟩
  | .ok realFunctionPath =>
    if w.statNotExist then
      ⟨[.stat realFunctionPath,
        .println [.red ("Function path " ++ realFunctionPath ++ " not exist")]], .code 1⟩
    else
      Run.pre [.stat realFunctionPath] (loadRc realFunctionPath f w)

/-! ## Observations on a run -/

/-- The target a run resolves (lines 56-108), none when the settings file stops the run. -/
def resolveTarget (f : Flags) (w : World) : Option Target :=
  match w.rcFile with
  | .missing => some (flagsOnly f (initialRegion f w))
  | .malformed _ => none
  | .null => none
  | .loaded rcConfig => some (mergeRc f (initialRegion f w) rcConfig)

/-- The three calls the pipeline makes to its collaborators. -/
inductive Call where
  | compile
  | putObject
  | updateFunctionCode
  deriving DecidableEq, Repr

/-- The collaborator call an event is, if it is one. -/
def Event.call? : Event → Option Call
  | .compile _ _ => some .compile
  | .putObject _ => some .putObject
  | .updateFunctionCode _ => some .updateFunctionCode
  | _ => none

/-- The collaborator calls of a trace, in order. -/
def calls (trace : List Event) : List Call := trace.filterMap Event.call?

/-- The paths handed to `os.Remove` in a trace. -/
def removals : List Event → List String
  | [] => []
  | .remove p :: rest => p :: removals rest
  | _ :: rest => removals rest

/-- A world in which every call succeeds: working directory `/proj/fn`, no settings file,
a compiler that writes a four-byte binary. -/
def okWorld : World :=
  { getwd := .ok "/proj/fn"
    statNotExist := false
    environ := ["HOME=/home/u"]
    awsDefaultRegion := ""
    rcFile := .missing
    compileErr := none
    compileOut := ""
    createHeaderErr := none
    binary := .ok [127, 69, 76, 70]
    writeErr := none
    closeErr := none
    sessionErr := none
    putErr := none
    updateErr := none
    removeResult := .removed }

/-- The flags of the scenario: path `/proj/fn`, name `fn1`, bucket `b1`, region
`us-east-1`. -/
def scenarioFlags (arm : Bool) : Flags :=
  { functionPath := "/proj/fn", functionName := "fn1", s3Bucket := "b1",
    region := "us-east-1", arm := arm }

/-- The line printed when the whole run is done (line 294). -/
def allDone : Event := .println [.plain ">> All done :)"]

/-- Events that are neither a collaborator call, nor a zip operation, nor a removal, nor
the line of completion. -/
def Event.quiet : Event → Bool
  | .println items => items != [.plain ">> All done :)"]
  | .stderr _ => true
  | .printDefaults => true
  | .stat _ => true
  | .readFile _ => true
  | _ => false

/-- The event a run may make once the target `t` and the absolute path are fixed. -/
def Event.conforms (realFunctionPath : String) (f : Flags) (t : Target) (w : World) :
    Event → Prop
  | .compile args env => args = compileArgs realFunctionPath ∧ env = compileEnv w t.arm
  | .createHeader h => h = zipHeader t.arm
  | .putObject inp =>
    inp.Bucket = t.s3Bucket ∧ inp.Key = objectKey t.functionName ∧
      inp.Body.entry = storedHeader (zipHeader t.arm)
  | .updateFunctionCode inp => inp = updateFuncCodeInput t
  | .newSession region => region = t.awsRegion
  | .remove p => p = f.functionPath ++ "/main"
  | _ => True

/-- A run either stops before the build with quiet events only, or is quiet events
followed by the build for the target `t`. -/
def Spine (real : String) (f : Flags) (t : Target) (w : World) (r : Run) : Prop :=
  ((∀ e ∈ r.trace, e.quiet = true) ∧ (r.exit = .code 1 ∨ r.exit = .panic)) ∨
  (t.functionName ≠ "" ∧ ∃ pre, (∀ e ∈ pre, e.quiet = true) ∧
    r = Run.pre pre (build real f t w))

/-! ## Inputs of the scenarios -/

/-- The scenario world without the source directory. -/
def missingDir : World := { okWorld with statNotExist := true }

/-- The scenario world with a compiler that fails after printing a diagnostic. -/
def compileFails : World :=
  { okWorld with
    compileErr := some "exit status 1"
    compileOut := "# command-line-arguments\n./main.go:3:1: syntax error" }

/-- The scenario world with a put that the object store refuses. -/
def putFails : World := { okWorld with putErr := some "AccessDenied" }

/-- The scenario world in which the compiled binary cannot be read back. -/
def readFails : World := { okWorld with binary := .error "open /proj/fn/main: permission denied" }

/-- The scenario world with an update that the platform refuses. -/
def updateFails : World := { okWorld with updateErr := some "ResourceNotFoundException" }

/-- The scenario world in which the binary is gone when the run reaches its cleanup. -/
def artifactGone : World := { okWorld with removeResult := .notExist }

/-- The scenario flags without a region. -/
def noRegionFlags : Flags := { scenarioFlags false with region := "" }

/-- The scenario flags with the empty string as `-path`. -/
def emptyPathFlags : Flags := { scenarioFlags false with functionPath := "" }

/-- A world whose working directory is `/home/u` and in which `/main` does not exist. -/
def homeWorld : World := { okWorld with getwd := .ok "/home/u", removeResult := .notExist }

/-- The scenario flags with the bucket flag `b3`. -/
def bucketFlags : Flags := { scenarioFlags false with s3Bucket := "b3" }

/-- The scenario world with a settings file that names the bucket `b2`. -/
def rcWorld : World :=
  { okWorld with rcFile := .loaded { Name := "", Bucket := "b2", Region := "", Arm := false } }

/-! ## Lemmas on the library functions -/

theorem len_eq_zero_iff (s : String) : len s = 0 ↔ s = "" := by
  constructor
  · intro h
    cases s with
    | mk cs =>
      cases cs with
      | nil => rfl
      | cons c cs =>
        simp [len, String.utf8ByteSize, String.utf8ByteSize.go] at h
        have := Char.utf8Size_pos c
        omega
  · rintro rfl; rfl

theorem len_lt_one_iff (s : String) : len s < 1 ↔ s = "" := by
  rw [← len_eq_zero_iff]; omega

theorem len_pos_iff (s : String) : len s > 0 ↔ s ≠ "" := by
  rw [Ne, ← len_eq_zero_iff]; omega

/-! ## The shape of a run -/

theorem Run.pre_trace (evs : List Event) (r : Run) : (Run.pre evs r).trace = evs ++ r.trace := rfl

theorem Run.pre_exit (evs : List Event) (r : Run) : (Run.pre evs r).exit = r.exit := rfl

theorem Run.pre_pre (a b : List Event) (r : Run) :
    Run.pre a (Run.pre b r) = Run.pre (a ++ b) r := by
  simp [Run.pre]

theorem Spine.pre {real : String} {f : Flags} {t : Target} {w : World} {r : Run}
    (evs : List Event) (hevs : ∀ e ∈ evs, e.quiet = true) (h : Spine real f t w r) :
    Spine real f t w (Run.pre evs r) := by
  rcases h with ⟨hq, hx⟩ | ⟨hn, pre, hq, he⟩
  · left
    refine ⟨?_, by simpa [Run.pre_exit] using hx⟩
    intro e he
    rcases List.mem_append.1 he with h1 | h1
    · exact hevs e h1
    · exact hq e h1
  · right
    refine ⟨hn, evs ++ pre, ?_, by rw [he, Run.pre_pre]⟩
    intro e he
    rcases List.mem_append.1 he with h1 | h1
    · exact hevs e h1
    · exact hq e h1

theorem validate_spine (real : String) (f : Flags) (t : Target) (w : World) :
    Spine real f t w (validate real f t w) := by
  unfold validate
  split
  · left; simp [Event.quiet, usage]
  · rename_i hname
    rw [len_lt_one_iff] at hname
    right
    refine ⟨hname, ?_⟩
    split
    · exact ⟨_, by simp [Event.quiet, usage, logParams], rfl⟩
    · exact ⟨_, by simp [Event.quiet, usage, logParams], rfl⟩

theorem main_spine (f : Flags) (w : World) :
    ((∀ e ∈ (main f w).trace, e.quiet = true) ∧
      ((main f w).exit = .code 1 ∨ (main f w).exit = .panic)) ∨
    (∃ real t pre, Abs w.getwd f.functionPath = .ok real ∧ w.statNotExist = false ∧
      resolveTarget f w = some t ∧ t.functionName ≠ "" ∧
      (∀ e ∈ pre, e.quiet = true) ∧ main f w = Run.pre pre (build real f t w)) := by
  unfold main
  split
  · left; simp [Event.quiet]
  · rename_i real hreal
    split
    · left; simp [Event.quiet]
    · rename_i hstat
      have hstat' : w.statNotExist = false := by simpa using hstat
      unfold loadRc resolveTarget
      cases hrc : w.rcFile with
      | malformed e => left; simp [Event.quiet, Run.pre]
      | null => left; simp [Event.quiet, Run.pre]
      | missing =>
        have h := Spine.pre [.stat real, .readFile (real ++ "/.pushrc.json")]
          (by simp [Event.quiet]) (validate_spine real f (flagsOnly f (initialRegion f w)) w)
        rcases h with h | ⟨hn, pre, hq, he⟩
        · left; simpa [Run.pre] using h
        · right
          exact ⟨real, _, pre, hreal, hstat', rfl, hn, hq, by simpa [Run.pre] using he⟩
      | loaded rc =>
        have h := Spine.pre [.stat real, .readFile (real ++ "/.pushrc.json")]
          (by simp [Event.quiet]) (validate_spine real f (mergeRc f (initialRegion f w) rc) w)
        rcases h with h | ⟨hn, pre, hq, he⟩
        · left; simpa [Run.pre] using h
        · right
          exact ⟨real, _, pre, hreal, hstat', rfl, hn, hq, by simpa [Run.pre] using he⟩

/-! ## Lemmas on the observations -/

theorem calls_nil : calls [] = [] := rfl

theorem calls_cons (e : Event) (tr : List Event) :
    calls (e :: tr) = match e.call? with
      | some c => c :: calls tr
      | none => calls tr := by
  cases h : e.call? <;> simp [calls, List.filterMap_cons, h]

theorem calls_quiet (pre tr : List Event) (h : ∀ e ∈ pre, e.quiet = true) :
    calls (pre ++ tr) = calls tr := by
  induction pre with
  | nil => rfl
  | cons e pre ih =>
    have he : e.quiet = true := h e (List.mem_cons_self _ _)
    have ih' := ih (fun x hx => h x (List.mem_cons_of_mem _ hx))
    cases e <;> simp_all [calls_cons, Event.quiet, Event.call?]

theorem removals_quiet (pre tr : List Event) (h : ∀ e ∈ pre, e.quiet = true) :
    removals (pre ++ tr) = removals tr := by
  induction pre with
  | nil => rfl
  | cons e pre ih =>
    have he : e.quiet = true := h e (List.mem_cons_self _ _)
    have ih' := ih (fun x hx => h x (List.mem_cons_of_mem _ hx))
    cases e <;> simp_all [removals, Event.quiet]

theorem calls_eq_nil_of_quiet (tr : List Event) (h : ∀ e ∈ tr, e.quiet = true) :
    calls tr = [] := by
  have := calls_quiet tr [] h
  simpa [calls_nil] using this

theorem mem_of_mem_quiet_append (pre tr : List Event) (e : Event)
    (h : ∀ x ∈ pre, x.quiet = true) (hq : e.quiet = false) (he : e ∈ pre ++ tr) : e ∈ tr := by
  rcases List.mem_append.1 he with h1 | h1
  · have := h e h1
    simp_all
  · exact h1

theorem mem_calls_iff (c : Call) (tr : List Event) :
    c ∈ calls tr ↔ ∃ e ∈ tr, e.call? = some c := by
  simp [calls, List.mem_filterMap]

theorem exists_compile_of_mem_calls (tr : List Event) (h : Call.compile ∈ calls tr) :
    ∃ args env, Event.compile args env ∈ tr := by
  obtain ⟨e, he, hc⟩ := (mem_calls_iff _ _).1 h
  cases e <;> simp [Event.call?] at hc
  exact ⟨_, _, he⟩

theorem exists_putObject_of_mem_calls (tr : List Event) (h : Call.putObject ∈ calls tr) :
    ∃ inp, Event.putObject inp ∈ tr := by
  obtain ⟨e, he, hc⟩ := (mem_calls_iff _ _).1 h
  cases e <;> simp [Event.call?] at hc
  exact ⟨_, he⟩

theorem exists_update_of_mem_calls (tr : List Event)
    (h : Call.updateFunctionCode ∈ calls tr) :
    ∃ inp, Event.updateFunctionCode inp ∈ tr := by
  obtain ⟨e, he, hc⟩ := (mem_calls_iff _ _).1 h
  cases e <;> simp [Event.call?] at hc
  exact ⟨_, he⟩

/-! ## The build and the stages after it -/

/-- Every event of the build and of the stages after it is the one the target prescribes. -/
theorem build_conforms (real : String) (f : Flags) (t : Target) (w : World) :
    ∀ e ∈ (build real f t w).trace, e.conforms real f t w := by
  unfold build package upload updateFunction cleanup
  repeat' split
  all_goals
    simp only [Run.pre, List.cons_append, List.nil_append, List.forall_mem_cons,
      List.not_mem_nil, Event.conforms, s3Input]
  all_goals simp

/-- The build and the stages after it: which calls are made and how the run ends. -/
theorem build_gated (real : String) (f : Flags) (t : Target) (w : World) :
    calls (build real f t w).trace <+: [.compile, .putObject, .updateFunctionCode] ∧
    Call.compile ∈ calls (build real f t w).trace ∧
    (Call.putObject ∈ calls (build real f t w).trace →
      w.compileErr = none ∧ ∃ b, w.binary = .ok b) ∧
    (Call.updateFunctionCode ∈ calls (build real f t w).trace →
      Call.putObject ∈ calls (build real f t w).trace ∧ w.compileErr = none ∧
        w.putErr = none) ∧
    (∀ e, w.putErr = some e → Call.putObject ∈ calls (build real f t w).trace →
      (build real f t w).exit = .code 1 ∧
      calls (build real f t w).trace = [.compile, .putObject]) := by
  unfold build package upload updateFunction cleanup
  repeat' split
  all_goals
    simp only [Run.pre, List.cons_append, List.nil_append, calls_cons, calls_nil, Event.call?]
  all_goals simp [*, List.prefix_iff_eq_take]

/-- A failing compiler ends the run after its error and its whole output are printed. -/
theorem build_compile_failed (real : String) (f : Flags) (t : Target) (w : World)
    (e : String) (he : w.compileErr = some e) :
    (build real f t w).exit = .code 1 ∧ calls (build real f t w).trace = [.compile] ∧
    ∃ pre args env, (build real f t w).trace =
      pre ++ [.compile args env, .println [.plain e], .println [.plain w.compileOut]] := by
  simp only [build, he]
  refine ⟨trivial, ?_, [_], _, _, rfl⟩
  simp [calls_cons, calls_nil, Event.call?]

/-- A build that ends with status 0 has made every call and removed the binary. -/
theorem build_exit_zero (real : String) (f : Flags) (t : Target) (w : World)
    (h : (build real f t w).exit = .code 0) :
    calls (build real f t w).trace = [.compile, .putObject, .updateFunctionCode] ∧
    removals (build real f t w).trace = [f.functionPath ++ "/main"] ∧
    allDone ∈ (build real f t w).trace ∧
    removeErr (f.functionPath ++ "/main") w.removeResult = none := by
  revert h
  unfold build package upload updateFunction cleanup
  repeat' split
  all_goals
    simp only [Run.pre, List.cons_append, List.nil_append, calls_cons, calls_nil, Event.call?,
      removals]
  all_goals simp [*, allDone]

/-- The end of a build whose stages all succeed and whose binary is gone at cleanup. -/
theorem build_remove_absent (real : String) (f : Flags) (t : Target) (w : World)
    (hgone : w.removeResult = .notExist)
    (hall : calls (build real f t w).trace = [.compile, .putObject, .updateFunctionCode])
    (hupd : w.updateErr = none) :
    (build real f t w).exit = .code 1 ∧ allDone ∉ (build real f t w).trace ∧
    ∃ pre, (build real f t w).trace = pre ++
      [.remove (f.functionPath ++ "/main"),
       .println [.red ("remove " ++ (f.functionPath ++ "/main") ++
         ": no such file or directory")]] := by
  have hsuf : ∀ (a b : List Event), ([Event.remove (f.functionPath ++ "/main"),
      Event.println [.red ("remove " ++ (f.functionPath ++ "/main") ++
         ": no such file or directory")]] <:+ a ++ b) → ∃ pre, a ++ b = pre ++
      [Event.remove (f.functionPath ++ "/main"),
       Event.println [.red ("remove " ++ (f.functionPath ++ "/main") ++
         ": no such file or directory")]] := by
    rintro a b ⟨pre, h⟩
    exact ⟨pre, h.symm⟩
  revert hall
  unfold build package upload updateFunction cleanup
  simp only [hgone, hupd, removeErr]
  repeat' split
  all_goals
    simp only [Run.pre, List.cons_append, List.nil_append, calls_cons, calls_nil, Event.call?]
  all_goals simp [allDone]
  all_goals
    exact hsuf [_] _ (by simp [List.suffix_cons_iff])

/-! ## The whole run -/

/-- Every event of a run that is not quiet is the one the resolved target prescribes. -/
theorem main_conforms (f : Flags) (w : World) (t : Target) (ht : resolveTarget f w = some t)
    (e : Event) (he : e ∈ (main f w).trace) (hq : e.quiet = false) :
    ∃ real, Abs w.getwd f.functionPath = .ok real ∧ e.conforms real f t w := by
  rcases main_spine f w with ⟨h, _⟩ | ⟨real, t', pre, hA, _, hT, _, hpre, hm⟩
  · have := h e he
    simp_all
  · have htt : t' = t := by
      rw [ht] at hT
      exact (Option.some.inj hT).symm
    subst htt
    rw [hm, Run.pre_trace] at he
    exact ⟨real, hA, build_conforms real f t' w e (mem_of_mem_quiet_append pre _ e hpre hq he)⟩

/-- A run that ends with status 0 has made every call and removed the binary. -/
theorem main_exit_zero (f : Flags) (w : World) (h : (main f w).exit = .code 0) :
    calls (main f w).trace = [.compile, .putObject, .updateFunctionCode] ∧
    removals (main f w).trace = [f.functionPath ++ "/main"] ∧
    allDone ∈ (main f w).trace ∧
    removeErr (f.functionPath ++ "/main") w.removeResult = none := by
  rcases main_spine f w with ⟨_, hx⟩ | ⟨real, t, pre, _, _, _, _, hpre, hm⟩
  · rcases hx with hx | hx <;> simp [hx] at h
  · rw [hm, Run.pre_exit] at h
    obtain ⟨h1, h2, h3, h4⟩ := build_exit_zero real f t w h
    rw [hm, Run.pre_trace, calls_quiet _ _ hpre, removals_quiet _ _ hpre]
    exact ⟨h1, h2, List.mem_append_right _ h3, h4⟩

theorem not_mem_quiet_allDone (pre : List Event) (h : ∀ e ∈ pre, e.quiet = true) :
    allDone ∉ pre := by
  intro hm
  have := h _ hm
  simp [allDone, Event.quiet] at this

theorem mergeRc_eq (f : Flags) (w : World) (rc : RcConfig) :
    mergeRc f (initialRegion f w) rc =
      { functionName := if f.functionName = "" then rc.Name else f.functionName
        s3Bucket := if f.s3Bucket = "" then rc.Bucket else f.s3Bucket
        awsRegion :=
          if f.region = "" then
            if w.awsDefaultRegion = "" then rc.Region else w.awsDefaultRegion
          else f.region
        arm := rc.Arm || f.arm } := by
  unfold mergeRc initialRegion
  simp only [len_pos_iff, len_lt_one_iff]
  congr 1
  · split_ifs <;> simp_all
  · split_ifs <;> simp_all
  · split_ifs <;> simp_all
  · cases rc.Arm <;> simp

theorem flagsOnly_eq (f : Flags) (w : World) :
    flagsOnly f (initialRegion f w) =
      { functionName := f.functionName
        s3Bucket := f.s3Bucket
        awsRegion := if f.region = "" then w.awsDefaultRegion else f.region
        arm := f.arm } := by
  unfold flagsOnly initialRegion
  simp only [len_pos_iff]
  congr 1
  split_ifs <;> simp_all

theorem main_stat_not_exist (f : Flags) (w : World) (h : w.statNotExist = true) :
    (main f w).exit = .code 1 ∧ calls (main f w).trace = [] := by
  unfold main
  split
  · simp [calls_cons, calls_nil, Event.call?]
  · simp [h, calls_cons, calls_nil, Event.call?]

/-! ## Architecture, object key, header -/

/-- C1: in every run that resolves a target, the compile environment is the process
environment followed by `GOOS=linux`, `CGO_ENABLED=0` and the `GOARCH` of the resolved
`arm` (amd64 for false, arm64 for true), the archive entry is named `main` for false and
`bootstrap` for true (as opened and as uploaded), and the update request's architectures
are `["x86_64"]` for false and `["arm64"]` for true; so no run pairs `bootstrap` with
x86_64 or `main` with arm64, and a run that exits 0 has made all three calls. -/
theorem C1_architecture_choices_agree (f : Flags) (w : World) (t : Target)
    (ht : resolveTarget f w = some t) :
    (∀ args env, Event.compile args env ∈ (main f w).trace →
      env = w.environ ++ ["GOOS=linux", "CGO_ENABLED=0",
        if t.arm then "GOARCH=arm64" else "GOARCH=amd64"]) ∧
    (∀ h, Event.createHeader h ∈ (main f w).trace →
      h.Name = if t.arm then "bootstrap" else "main") ∧
    (∀ inp, Event.putObject inp ∈ (main f w).trace →
      inp.Body.entry.Name = if t.arm then "bootstrap" else "main") ∧
    (∀ inp, Event.updateFunctionCode inp ∈ (main f w).trace →
      inp.Architectures = if t.arm then ["arm64"] else ["x86_64"]) ∧
    (∀ h inp, Event.createHeader h ∈ (main f w).trace →
      Event.updateFunctionCode inp ∈ (main f w).trace →
      ¬ (h.Name = "bootstrap" ∧ inp.Architectures = ["x86_64"]) ∧
      ¬ (h.Name = "main" ∧ inp.Architectures = ["arm64"])) ∧
    ((main f w).exit = .code 0 →
      (∃ args env, Event.compile args env ∈ (main f w).trace) ∧
      (∃ inp, Event.putObject inp ∈ (main f w).trace) ∧
      (∃ inp, Event.updateFunctionCode inp ∈ (main f w).trace)) := by
  have hc : ∀ args env, Event.compile args env ∈ (main f w).trace →
      env = compileEnv w t.arm := by
    intro args env he
    obtain ⟨_, _, h⟩ := main_conforms f w t ht _ he rfl
    exact h.2
  have hh : ∀ h, Event.createHeader h ∈ (main f w).trace → h = zipHeader t.arm := by
    intro h he
    obtain ⟨_, _, h⟩ := main_conforms f w t ht _ he rfl
    exact h
  have hp : ∀ inp, Event.putObject inp ∈ (main f w).trace →
      inp.Body.entry = storedHeader (zipHeader t.arm) := by
    intro inp he
    obtain ⟨_, _, h⟩ := main_conforms f w t ht _ he rfl
    exact h.2.2
  have hu : ∀ inp, Event.updateFunctionCode inp ∈ (main f w).trace →
      inp = updateFuncCodeInput t := by
    intro inp he
    obtain ⟨_, _, h⟩ := main_conforms f w t ht _ he rfl
    exact h
  refine ⟨?_, ?_, ?_, ?_, ?_, ?_⟩
  · intro args env he
    rw [hc args env he]
    cases harm : t.arm <;> simp [harm, compileEnv, goarch]
  · intro h he
    rw [hh h he]
    cases harm : t.arm <;> simp [harm, zipHeader, zipFileName]
  · intro inp he
    rw [hp inp he]
    cases harm : t.arm <;> simp [harm, storedHeader, zipHeader, zipFileName]
  · intro inp he
    rw [hu inp he]
    cases harm : t.arm <;> simp [harm, updateFuncCodeInput, architectures]
  · intro h inp he1 he2
    rw [hh h he1, hu inp he2]
    cases harm : t.arm <;> simp [harm, updateFuncCodeInput, architectures, zipHeader, zipFileName]
  · intro hx
    obtain ⟨h1, _, _, _⟩ := main_exit_zero f w hx
    exact ⟨exists_compile_of_mem_calls _ (by simp [h1]),
      exists_putObject_of_mem_calls _ (by simp [h1]),
      exists_update_of_mem_calls _ (by simp [h1])⟩

/-- C1 at the scenario built for ARM: `GOARCH=arm64`, `bootstrap`, `["arm64"]`. -/
theorem C1_architecture_choices_agree_witness :
    resolveTarget (scenarioFlags true) okWorld = some ⟨"fn1", "b1", "us-east-1", true⟩ ∧
    (main (scenarioFlags true) okWorld).exit = .code 0 ∧
    Event.compile ["go", "build", "-trimpath", "-o", "/proj/fn/main", "/proj/fn/main.go"]
      ["HOME=/home/u", "GOOS=linux", "CGO_ENABLED=0", "GOARCH=arm64"]
      ∈ (main (scenarioFlags true) okWorld).trace ∧
    Event.createHeader ⟨768, 33488896, "bootstrap", 8⟩
      ∈ (main (scenarioFlags true) okWorld).trace ∧
    Event.updateFunctionCode ⟨"fn1", false, false, "b1", "fn1.zip", ["arm64"]⟩
      ∈ (main (scenarioFlags true) okWorld).trace ∧
    (∀ inp, Event.updateFunctionCode inp ∈ (main (scenarioFlags true) okWorld).trace →
      inp.Architectures = ["arm64"]) :=
  ⟨by decide, by decide, by decide, by decide, by decide,
    (C1_architecture_choices_agree (scenarioFlags true) okWorld
      ⟨"fn1", "b1", "us-east-1", true⟩ (by decide)).2.2.2.1⟩

/-- C2: in every run that resolves a target with function name `n` and bucket `b`, every
put goes to bucket `b` under the key `n ++ ".zip"`, every update request names function
`n`, bucket `b` and the key `n ++ ".zip"` with `Publish` and `DryRun` false, and a run
that exits 0 has made both calls. -/
theorem C2_object_key_and_update_request (f : Flags) (w : World) (t : Target)
    (ht : resolveTarget f w = some t) :
    (∀ inp, Event.putObject inp ∈ (main f w).trace →
      inp.Bucket = t.s3Bucket ∧ inp.Key = t.functionName ++ ".zip") ∧
    (∀ inp, Event.updateFunctionCode inp ∈ (main f w).trace →
      inp.FunctionName = t.functionName ∧ inp.S3Bucket = t.s3Bucket ∧
      inp.S3Key = t.functionName ++ ".zip" ∧ inp.Publish = false ∧ inp.DryRun = false) ∧
    ((main f w).exit = .code 0 →
      (∃ inp, Event.putObject inp ∈ (main f w).trace) ∧
      (∃ inp, Event.updateFunctionCode inp ∈ (main f w).trace)) := by
  refine ⟨?_, ?_, ?_⟩
  · intro inp he
    obtain ⟨_, _, h⟩ := main_conforms f w t ht _ he rfl
    exact ⟨h.1, h.2.1⟩
  · intro inp he
    obtain ⟨_, _, h⟩ := main_conforms f w t ht _ he rfl
    have h' : inp = updateFuncCodeInput t := h
    subst h'
    simp [updateFuncCodeInput, objectKey]
  · intro hx
    obtain ⟨h1, _, _, _⟩ := main_exit_zero f w hx
    exact ⟨exists_putObject_of_mem_calls _ (by simp [h1]),
      exists_update_of_mem_calls _ (by simp [h1])⟩

/-- C2 at the scenario: name `fn1` and bucket `b1` give the key `fn1.zip` in bucket `b1`
for the put and for the update. -/
theorem C2_object_key_and_update_request_witness :
    resolveTarget (scenarioFlags false) okWorld = some ⟨"fn1", "b1", "us-east-1", false⟩ ∧
    (main (scenarioFlags false) okWorld).exit = .code 0 ∧
    Event.putObject ⟨"b1", "fn1.zip", ⟨⟨788, 33488896, "main", 8⟩, [127, 69, 76, 70], true, true⟩⟩
      ∈ (main (scenarioFlags false) okWorld).trace ∧
    Event.updateFunctionCode ⟨"fn1", false, false, "b1", "fn1.zip", ["x86_64"]⟩
      ∈ (main (scenarioFlags false) okWorld).trace ∧
    (∀ inp, Event.putObject inp ∈ (main (scenarioFlags false) okWorld).trace →
      inp.Bucket = "b1" ∧ inp.Key = "fn1" ++ ".zip") :=
  ⟨by decide, by decide, by decide, by decide,
    (C2_object_key_and_update_request (scenarioFlags false) okWorld
      ⟨"fn1", "b1", "us-east-1", false⟩ (by decide)).1⟩

/-! ## Gating, resolution, cleanup -/

/-- C5: in every run the collaborator calls are a prefix of compile, put, update; a put is
made only after a successful compile and a successful read of the binary, an update only
after a successful compile and a successful put; a source directory that does not exist
ends the run with 1 and no call; a failing compiler ends the run with 1 after the
compiler's error and its whole combined output are printed, with no put and no update; a
failing put ends the run with 1 and no update; the three cases are met by the scenario
with the directory missing, with a failing compiler and with a failing put. -/
theorem C5_stages_gated (f : Flags) (w : World) :
    calls (main f w).trace <+: [.compile, .putObject, .updateFunctionCode] ∧
    (Call.putObject ∈ calls (main f w).trace →
      Call.compile ∈ calls (main f w).trace ∧ w.compileErr = none ∧ ∃ b, w.binary = .ok b) ∧
    (Call.updateFunctionCode ∈ calls (main f w).trace →
      Call.putObject ∈ calls (main f w).trace ∧ w.compileErr = none ∧ w.putErr = none) ∧
    (w.statNotExist = true → (main f w).exit = .code 1 ∧ calls (main f w).trace = []) ∧
    (∀ e, w.compileErr = some e → Call.compile ∈ calls (main f w).trace →
      (main f w).exit = .code 1 ∧ calls (main f w).trace = [.compile] ∧
      ∃ pre args env, (main f w).trace =
        pre ++ [.compile args env, .println [.plain e], .println [.plain w.compileOut]]) ∧
    (∀ e, w.putErr = some e → Call.putObject ∈ calls (main f w).trace →
      (main f w).exit = .code 1 ∧ calls (main f w).trace = [.compile, .putObject]) ∧
    (main (scenarioFlags false) missingDir).exit = .code 1 ∧
    calls (main (scenarioFlags false) missingDir).trace = [] ∧
    (main (scenarioFlags false) compileFails).exit = .code 1 ∧
    calls (main (scenarioFlags false) compileFails).trace = [.compile] ∧
    Event.println [.plain "# command-line-arguments\n./main.go:3:1: syntax error"]
      ∈ (main (scenarioFlags false) compileFails).trace ∧
    (main (scenarioFlags false) putFails).exit = .code 1 ∧
    calls (main (scenarioFlags false) putFails).trace = [.compile, .putObject] := by
  refine ⟨?_, ?_, ?_, main_stat_not_exist f w, ?_, ?_, by decide, by decide, by decide,
    by decide, by decide, by decide, by decide⟩
  all_goals
    rcases main_spine f w with ⟨hq, _⟩ | ⟨real, t, pre, _, _, _, _, hpre, hm⟩
  all_goals
    first
    | (have h0 := calls_eq_nil_of_quiet _ hq
       simp [h0])
    | skip
  all_goals
    obtain ⟨g1, g2, g3, g4, g5⟩ := build_gated real f t w
    simp only [hm, Run.pre_trace, Run.pre_exit, calls_quiet _ _ hpre]
  · exact g1
  · intro hp
    exact ⟨g2, g3 hp⟩
  · exact g4
  · intro e he _
    obtain ⟨h1, h2, pre', args, env, h3⟩ := build_compile_failed real f t w e he
    exact ⟨h1, h2, pre ++ pre', args, env, by rw [h3, List.append_assoc]⟩
  · intro e he hp
    exact g5 e he hp

/-- C6: with a settings file, the resolved name is the name flag unless that flag is
empty, the resolved bucket is the bucket flag unless that flag is empty, and the resolved
region is the region flag unless that flag is empty, then `AWS_DEFAULT_REGION` unless
that is empty too, and only then the file's value; without a settings file the flags and
the environment stand; the put and the session of the run use these values; the file's
bucket `b2` under the bucket flag `b3` resolves to `b3`. -/
theorem C6_explicit_parameters_win (f : Flags) (w : World) (rc : RcConfig) :
    resolveTarget f { w with rcFile := .loaded rc } = some
      { functionName := if f.functionName = "" then rc.Name else f.functionName
        s3Bucket := if f.s3Bucket = "" then rc.Bucket else f.s3Bucket
        awsRegion :=
          if f.region = "" then
            if w.awsDefaultRegion = "" then rc.Region else w.awsDefaultRegion
          else f.region
        arm := rc.Arm || f.arm } ∧
    resolveTarget f { w with rcFile := .missing } = some
      { functionName := f.functionName
        s3Bucket := f.s3Bucket
        awsRegion := if f.region = "" then w.awsDefaultRegion else f.region
        arm := f.arm } ∧
    (∀ inp, Event.putObject inp ∈ (main f { w with rcFile := .loaded rc }).trace →
      inp.Bucket = (if f.s3Bucket = "" then rc.Bucket else f.s3Bucket) ∧
      inp.Key = (if f.functionName = "" then rc.Name else f.functionName) ++ ".zip") ∧
    (∀ region, Event.newSession region ∈ (main f { w with rcFile := .loaded rc }).trace →
      region =
        if f.region = "" then
          if w.awsDefaultRegion = "" then rc.Region else w.awsDefaultRegion
        else f.region) ∧
    (resolveTarget bucketFlags rcWorld).map Target.s3Bucket = some "b3" ∧
    Event.putObject ⟨"b3", "fn1.zip",
      ⟨⟨788, 33488896, "main", 8⟩, [127, 69, 76, 70], true, true⟩⟩
      ∈ (main bucketFlags rcWorld).trace := by
  have h1 : resolveTarget f { w with rcFile := .loaded rc } = some
      { functionName := if f.functionName = "" then rc.Name else f.functionName
        s3Bucket := if f.s3Bucket = "" then rc.Bucket else f.s3Bucket
        awsRegion :=
          if f.region = "" then
            if w.awsDefaultRegion = "" then rc.Region else w.awsDefaultRegion
          else f.region
        arm := rc.Arm || f.arm } := by
    have := mergeRc_eq f w rc
    simpa [resolveTarget, initialRegion] using this
  have h2 : resolveTarget f { w with rcFile := .missing } = some
      { functionName := f.functionName
        s3Bucket := f.s3Bucket
        awsRegion := if f.region = "" then w.awsDefaultRegion else f.region
        arm := f.arm } := by
    have := flagsOnly_eq f w
    simpa [resolveTarget, initialRegion] using this
  refine ⟨h1, h2, ?_, ?_, by decide, by decide⟩
  · intro inp he
    obtain ⟨_, _, h⟩ := main_conforms f _ _ h1 _ he rfl
    exact ⟨h.1, h.2.1⟩
  · intro region he
    obtain ⟨_, _, h⟩ := main_conforms f _ _ h1 _ he rfl
    exact h

/-- C8, amended: the removal at the end of the run is not idempotent. When every stage
has succeeded and the binary is already gone at cleanup, the removal returns an error,
the run prints that error as its last line, does not print completion, and exits with
1. -/
theorem C8_removal_error_is_fatal (f : Flags) (w : World)
    (hgone : w.removeResult = .notExist)
    (hall : calls (main f w).trace = [.compile, .putObject, .updateFunctionCode])
    (hupd : w.updateErr = none) :
    (main f w).exit = .code 1 ∧ allDone ∉ (main f w).trace ∧
    ∃ pre, (main f w).trace = pre ++
      [.remove (f.functionPath ++ "/main"),
       .println [.red ("remove " ++ (f.functionPath ++ "/main") ++
         ": no such file or directory")]] := by
  rcases main_spine f w with ⟨hq, _⟩ | ⟨real, t, pre, _, _, _, _, hpre, hm⟩
  · have h0 := calls_eq_nil_of_quiet _ hq
    rw [h0] at hall
    exact absurd hall (by simp)
  · rw [hm, Run.pre_trace, calls_quiet _ _ hpre] at hall
    obtain ⟨h1, h2, pre', h3⟩ := build_remove_absent real f t w hgone hall hupd
    rw [hm, Run.pre_trace, Run.pre_exit]
    refine ⟨h1, ?_, pre ++ pre', by rw [h3, List.append_assoc]⟩
    intro hmem
    rcases List.mem_append.1 hmem with h | h
    · exact not_mem_quiet_allDone pre hpre h
    · exact h2 h

/-- C8 amended, at the scenario with the binary already gone at cleanup. -/
theorem C8_removal_error_is_fatal_witness :
    artifactGone.removeResult = .notExist ∧
    calls (main (scenarioFlags false) artifactGone).trace
      = [.compile, .putObject, .updateFunctionCode] ∧
    artifactGone.updateErr = none ∧
    (main (scenarioFlags false) artifactGone).exit = .code 1 ∧
    allDone ∉ (main (scenarioFlags false) artifactGone).trace :=
  ⟨by decide, by decide, by decide,
    (C8_removal_error_is_fatal (scenarioFlags false) artifactGone (by decide) (by decide)
      (by decide)).1,
    (C8_removal_error_is_fatal (scenarioFlags false) artifactGone (by decide) (by decide)
      (by decide)).2.1⟩

/-- C10: for both architecture selectors the entry header, as handed to the archive writer
and as the archive stores and uploads it, has method deflate (8), a creator version whose
high byte is 3 (Unix) and which fits in 16 bits, and external attributes whose upper 16
bits are the permission bits 0777 and which fit in 32 bits; neither constant of the source
is cut by its field width; every header a run opens is the handed one and every entry a
run uploads has these properties. -/
theorem C10_entry_header_executable (arm : Bool) :
    (zipHeader arm).Method = 8 ∧
    (zipHeader arm).CreatorVersion >>> 8 = 3 ∧
    (zipHeader arm).CreatorVersion < 2 ^ 16 ∧
    (zipHeader arm).CreatorVersion = 3 <<< 8 ∧
    ((zipHeader arm).ExternalAttrs >>> 16) &&& 0o777 = 0o777 ∧
    (zipHeader arm).ExternalAttrs >>> 16 = 0o777 ∧
    (zipHeader arm).ExternalAttrs < 2 ^ 32 ∧
    (zipHeader arm).ExternalAttrs = 0o777 <<< 16 ∧
    (storedHeader (zipHeader arm)).Method = 8 ∧
    (storedHeader (zipHeader arm)).CreatorVersion >>> 8 = 3 ∧
    (storedHeader (zipHeader arm)).CreatorVersion < 2 ^ 16 ∧
    (storedHeader (zipHeader arm)).CreatorVersion = 788 ∧
    ((storedHeader (zipHeader arm)).ExternalAttrs >>> 16) &&& 0o777 = 0o777 ∧
    (storedHeader (zipHeader arm)).ExternalAttrs < 2 ^ 32 ∧
    (∀ f w h, Event.createHeader h ∈ (main f w).trace → ∃ a, h = zipHeader a) ∧
    (∀ f w inp, Event.putObject inp ∈ (main f w).trace →
      inp.Body.entry.Method = 8 ∧
      inp.Body.entry.CreatorVersion >>> 8 = 3 ∧
      inp.Body.entry.CreatorVersion < 2 ^ 16 ∧
      (inp.Body.entry.ExternalAttrs >>> 16) &&& 0o777 = 0o777 ∧
      inp.Body.entry.ExternalAttrs < 2 ^ 32) ∧
    Event.createHeader (zipHeader arm) ∈ (main (scenarioFlags arm) okWorld).trace ∧
    Event.putObject (s3Input ⟨"fn1", "b1", "us-east-1", arm⟩
        ⟨storedHeader (zipHeader arm), [127, 69, 76, 70], true, true⟩)
      ∈ (main (scenarioFlags arm) okWorld).trace := by
  refine ⟨by cases arm <;> decide, by cases arm <;> decide, by cases arm <;> decide,
    by cases arm <;> decide, by cases arm <;> decide, by cases arm <;> decide,
    by cases arm <;> decide, by cases arm <;> decide, by cases arm <;> decide,
    by cases arm <;> decide, by cases arm <;> decide, by cases arm <;> decide,
    by cases arm <;> decide, by cases arm <;> decide, ?_, ?_, by cases arm <;> decide,
    by cases arm <;> decide⟩
  · intro f w h he
    rcases main_spine f w with ⟨hq, _⟩ | ⟨real, t, pre, _, _, _, _, hpre, hm⟩
    · have := hq _ he
      simp [Event.quiet] at this
    · rw [hm, Run.pre_trace] at he
      exact ⟨t.arm, build_conforms real f t w _
        (mem_of_mem_quiet_append pre _ (.createHeader h) hpre rfl he)⟩
  · intro f w inp he
    rcases main_spine f w with ⟨hq, _⟩ | ⟨real, t, pre, _, _, _, _, hpre, hm⟩
    · have := hq _ he
      simp [Event.quiet] at this
    · rw [hm, Run.pre_trace] at he
      have hent : inp.Body.entry = storedHeader (zipHeader t.arm) :=
        (build_conforms real f t w _
          (mem_of_mem_quiet_append pre _ (.putObject inp) hpre rfl he)).2.2
      rw [hent]
      cases t.arm <;> decide

/-! ## Runs that leave the documented behaviour -/

/-- C3 at a failing put: the compiler has written `/proj/fn/main`, the put fails, and the
run exits with 1 without any removal; the same when the binary cannot be read back; only
the failing update removes the binary. -/
theorem C3_binary_left_after_failed_put :
    calls (main (scenarioFlags false) putFails).trace = [.compile, .putObject] ∧
    (main (scenarioFlags false) putFails).exit = .code 1 ∧
    removals (main (scenarioFlags false) putFails).trace = [] ∧
    calls (main (scenarioFlags false) readFails).trace = [.compile] ∧
    (main (scenarioFlags false) readFails).exit = .code 1 ∧
    removals (main (scenarioFlags false) readFails).trace = [] ∧
    (main (scenarioFlags false) updateFails).exit = .code 1 ∧
    removals (main (scenarioFlags false) updateFails).trace = ["/proj/fn/main"] := by
  decide

/-- C4 at a missing region: with no region flag, no `AWS_DEFAULT_REGION` and no settings
file the run prints `AWS region required`, goes on to compile, put and update, and exits
with 0; when the put then fails the compile has still been made. -/
theorem C4_missing_region_goes_on :
    initialRegion noRegionFlags okWorld = "" ∧
    Event.println [.red "AWS region required"] ∈ (main noRegionFlags okWorld).trace ∧
    calls (main noRegionFlags okWorld).trace = [.compile, .putObject, .updateFunctionCode] ∧
    (main noRegionFlags okWorld).exit = .code 0 ∧
    calls (main noRegionFlags putFails).trace = [.compile, .putObject] := by
  decide

/-- C8 fails at the scenario with the binary already gone at cleanup: every call succeeds,
the removal finds no file, and the run exits with 1 without printing completion. -/
theorem C8_absent_artifact_fails_the_run :
    calls (main (scenarioFlags false) artifactGone).trace
      = [.compile, .putObject, .updateFunctionCode] ∧
    artifactGone.updateErr = none ∧
    artifactGone.removeResult = .notExist ∧
    ¬ ((main (scenarioFlags false) artifactGone).exit = .code 0 ∧
      allDone ∈ (main (scenarioFlags false) artifactGone).trace) := by
  decide

/-- C9 at the empty path: with `-path ""` in `/home/u` the compiler writes and the
packaging reads `/home/u/main`, while the removal, at the end of the run and on a failing
update, is handed `/main`, which names another file. -/
theorem C9_empty_path_removes_other_file :
    Event.compile ["go", "build", "-trimpath", "-o", "/home/u/main", "/home/u/main.go"]
      ["HOME=/home/u", "GOOS=linux", "CGO_ENABLED=0", "GOARCH=amd64"]
      ∈ (main emptyPathFlags homeWorld).trace ∧
    Event.readFile "/home/u/main" ∈ (main emptyPathFlags homeWorld).trace ∧
    removals (main emptyPathFlags homeWorld).trace = ["/main"] ∧
    removals (main emptyPathFlags { homeWorld with updateErr := some "denied" }).trace
      = ["/main"] ∧
    fileOf "/home/u" "/main" ≠ fileOf "/home/u" "/home/u/main" ∧
    (main emptyPathFlags homeWorld).exit = .code 1 := by
  decide

end Pushlambda
